import Mathlib

/-!
Shallow embedding of the pyGascard repository (src/pygascard) and proofs
about its behaviour.

Conventions of the embedding:
* Bytes are `Nat` values; a Python `bytearray` is a `List Nat`.
* The serial line is modelled as a list of read events: each time the
  transport's inner `while c is None: c = await self._read()` loop runs under
  `anyio.move_on_after(timeout)`, the environment either delivers a chunk of
  bytes (`some chunk`) or the timeout fires first (`none`).  An exhausted
  event list behaves like a timeout on every further attempt.
* Device replies above the transport are modelled as a function
  `Nat → String`: the line obtained by the i-th `_write_readline` call.
* Python exceptions are explicit constructors of the result types.
* Times are exact rationals, division included.
-/

/-- The end-of-line terminator `b"\r\n"` of `SerialDevice` (comm.py). -/
def eolL : List Nat := [13, 10]

/-- Bytes of an ASCII string, as `command.encode` yields in comm.py. -/
def strBytes (s : String) : List Nat := s.data.map Char.toNat

/-- ASCII decoding, as `line.decode` at the end of `_readline`. -/
def asciiDecode (l : List Nat) : String := String.mk (l.map Char.ofNat)

/-- The mode lead-in tokens `self.codes_list` of `SerialDevice.__init__`. -/
def codesList : List (List Nat) :=
  [strBytes ("N "), strBytes ("N1 "), strBytes ("C1 "), strBytes ("E1 "),
   strBytes ("O1 "), strBytes ("X "), strBytes ("U ")]

/-- Python `line.startswith(tuple(self.codes_list))` in `_readline`. -/
def codesAny (line : List Nat) : Bool :=
  codesList.any (fun c => c.isPrefixOf line)

/-- Whether a byte list starts with the two-byte terminator 13 10. -/
def startsWithEol : List Nat → Bool
  | a :: b :: _ => a == 13 && b == 10
  | _ => false

/-- Python `self.eol in line`: the terminator occurs contiguously in `line`. -/
def hasEol : List Nat → Bool
  | [] => false
  | a :: t => startsWithEol (a :: t) || hasEol t

/-- Outcome of `SerialDevice._readline` (comm.py lines 166-209): either the
decoded bytes returned by the method, or the `TypeError` that `line += c`
raises when `c` is still `None` after a timeout in the second loop. -/
inductive ReadResult
  | ok (line : List Nat)
  | typeError
  deriving DecidableEq

/-- First loop of `_readline` (comm.py lines 175-194): accumulate chunks until
a lead-in token matches the buffer's prefix (aligned start), the terminator
appears inside the buffer (mid-line start: the buffer is discarded), or a
timeout.  Returns the buffer, whether `c is None`, and the unread events. -/
def phase1 : List (Option (List Nat)) → List Nat →
    List Nat × Bool × List (Option (List Nat))
  | [], line => (line, true, [])
  | none :: rest, line => (line, true, rest)
  | some c :: rest, line =>
    let line' := line ++ c
    if codesAny line' then (line', false, rest)
    else if hasEol line' then ([], false, rest)
    else phase1 rest line'

/-- Second loop of `_readline` (comm.py lines 195-207): if the first loop
timed out (`c is None`) return the buffer as is; otherwise accumulate until
the terminator is inside the buffer.  A timeout here leaves `c = None` and
the unconditional `line += c` raises `TypeError`. -/
def phase2 : List (Option (List Nat)) → List Nat → Bool → ReadResult
  | _, line, true => .ok line
  | [], line, false => if hasEol line then .ok line else .typeError
  | none :: _, line, false => if hasEol line then .ok line else .typeError
  | some c :: rest, line, false =>
    if hasEol line then .ok line else phase2 rest (line ++ c) false

/-- Model of `SerialDevice._readline` over a stream of read events.  The returned
bytes are what `line.decode("ascii")` is applied to. -/
def readline_bytes (stream : List (Option (List Nat))) : ReadResult :=
  match phase1 stream [] with
  | (line, cNone, rest) => phase2 rest line cNone

/-- A stream delivering its bytes one per read attempt. -/
def byteAtATime (l : List Nat) : List (Option (List Nat)) :=
  l.map (fun b => some [b])

/-- State of the serial port: bytes sent so far and pending read events. -/
structure PortState where
  written : List Nat
  incoming : List (Option (List Nat))

/-- Model of `SerialDevice._write` (comm.py lines 149-164) when actually awaited:
sends `command.encode("ascii") + self.eol`. -/
def serial_write (st : PortState) (cmd : List Nat) : PortState :=
  ⟨st.written ++ cmd ++ eolL, st.incoming⟩

/-- Model of `SerialDevice._write_readline` (comm.py lines 240-287).  Line 251 is
`self._write(command)` without `await`: it builds the coroutine below and
never runs it, so the written bytes are untouched, and the method then runs
the same two read loops as `_readline` (lines 252-286 duplicate 174-207). -/
def write_readline (st : PortState) (cmd : List Nat) : ReadResult × PortState :=
  let _unawaited : PortState → PortState := fun s => serial_write s cmd
  (readline_bytes st.incoming, st)

/- ### Generic lemmas about the transport helpers -/

theorem isPrefixOf_append_right (c l x : List Nat) (h : c.isPrefixOf l = true) :
    c.isPrefixOf (l ++ x) = true := by
  rw [List.isPrefixOf_iff_prefix] at h ⊢
  exact h.trans (List.prefix_append l x)

theorem codesAny_append (l x : List Nat) (h : codesAny l = true) :
    codesAny (l ++ x) = true := by
  rw [codesAny, List.any_eq_true] at h ⊢
  obtain ⟨c, hc, hp⟩ := h
  exact ⟨c, hc, isPrefixOf_append_right c l x hp⟩

theorem startsWithEol_append (a : Nat) (t x : List Nat) :
    startsWithEol (a :: (t ++ x)) = false → startsWithEol (a :: t) = false := by
  cases t with
  | nil => intro _; rfl
  | cons b t' => simp only [List.cons_append, startsWithEol]; exact id

theorem hasEol_of_append (x y : List Nat) (h : hasEol (x ++ y) = false) :
    hasEol x = false := by
  induction x with
  | nil => rfl
  | cons a t ih =>
    rw [List.cons_append, hasEol, Bool.or_eq_false_iff] at h
    rw [hasEol, Bool.or_eq_false_iff]
    exact ⟨startsWithEol_append a t y h.1, ih h.2⟩

theorem hasEol_append_cr (l : List Nat) (h : hasEol l = false) :
    hasEol (l ++ [13]) = false := by
  induction l with
  | nil => rfl
  | cons a t ih =>
    rw [hasEol, Bool.or_eq_false_iff] at h
    rw [List.cons_append, hasEol, Bool.or_eq_false_iff]
    refine ⟨?_, ih h.2⟩
    cases t with
    | nil => simp [startsWithEol]
    | cons b t' => exact h.1

theorem hasEol_append_eol (l : List Nat) : hasEol (l ++ eolL) = true := by
  induction l with
  | nil => rfl
  | cons a t ih =>
    rw [List.cons_append, hasEol, ih, Bool.or_true]

theorem byteAtATime_cons (b : Nat) (l : List Nat) :
    byteAtATime (b :: l) = some [b] :: byteAtATime l := rfl

theorem byteAtATime_append (l r : List Nat) :
    byteAtATime (l ++ r) = byteAtATime l ++ byteAtATime r := by
  simp [byteAtATime]

/- ### Step equations for the two loops -/

theorem phase1_nil (line : List Nat) : phase1 [] line = (line, true, []) := rfl

theorem phase1_noneEv (rest : List (Option (List Nat))) (line : List Nat) :
    phase1 (none :: rest) line = (line, true, rest) := rfl

theorem phase1_some (c : List Nat) (rest : List (Option (List Nat)))
    (line : List Nat) :
    phase1 (some c :: rest) line =
      (if codesAny (line ++ c) then (line ++ c, false, rest)
       else if hasEol (line ++ c) then ([], false, rest)
       else phase1 rest (line ++ c)) := rfl

theorem phase2_stop (s : List (Option (List Nat))) (line : List Nat) :
    phase2 s line true = .ok line := by
  cases s with
  | nil => rfl
  | cons e rest => cases e <;> rfl

theorem phase2_eol (s : List (Option (List Nat))) (line : List Nat)
    (h : hasEol line = true) : phase2 s line false = .ok line := by
  cases s with
  | nil => simp [phase2, h]
  | cons e rest => cases e <;> simp [phase2, h]

theorem phase2_nil (line : List Nat) (h : hasEol line = false) :
    phase2 [] line false = .typeError := by
  simp [phase2, h]

theorem phase2_noneEv (rest : List (Option (List Nat))) (line : List Nat)
    (h : hasEol line = false) : phase2 (none :: rest) line false = .typeError := by
  simp [phase2, h]

theorem phase2_some (c : List Nat) (rest : List (Option (List Nat)))
    (line : List Nat) (h : hasEol line = false) :
    phase2 (some c :: rest) line false = phase2 rest (line ++ c) false := by
  simp [phase2, h]

/- ### Behaviour of the two loops on byte-at-a-time streams -/

/-- If no lead-in ever matches and the terminator completes exactly at the
last byte of `rem`, the first loop discards the whole buffer and stops. -/
theorem phase1_discard (rem : List Nat) : ∀ (acc : List Nat)
    (tail : List (Option (List Nat))),
    hasEol acc = false →
    codesAny (acc ++ rem) = false →
    (∀ j, j < rem.length → hasEol (acc ++ rem.take j) = false) →
    hasEol (acc ++ rem) = true →
    phase1 (byteAtATime rem ++ tail) acc = ([], false, tail) := by
  induction rem with
  | nil =>
    intro acc tail h1 _ _ h4
    rw [List.append_nil] at h4
    rw [h1] at h4
    exact absurd h4 (by simp)
  | cons b rem' ih =>
    intro acc tail h1 h2 h3 h4
    rw [byteAtATime_cons, List.cons_append, phase1_some]
    have hcodes : codesAny (acc ++ [b]) = false := by
      cases hc : codesAny (acc ++ [b]) with
      | false => rfl
      | true =>
        have := codesAny_append (acc ++ [b]) rem' hc
        rw [List.append_assoc] at this
        simp only [List.singleton_append] at this
        rw [this] at h2
        exact absurd h2 (by simp)
    rw [if_neg (by simp [hcodes])]
    cases rem' with
    | nil =>
      have heol : hasEol (acc ++ [b]) = true := by
        simpa using h4
      rw [if_pos heol]
      rfl
    | cons c rem'' =>
      have heol : hasEol (acc ++ [b]) = false := by
        have := h3 1 (by simp)
        simpa using this
      rw [if_neg (by simp [heol])]
      have happ : acc ++ b :: c :: rem'' = (acc ++ [b]) ++ c :: rem'' := by
        simp
      refine ih (acc ++ [b]) tail heol ?_ ?_ ?_
      · rw [← happ]; exact h2
      · intro j hj
        have := h3 (j + 1) (by simpa using Nat.succ_lt_succ hj)
        simpa [List.append_assoc] using this
      · rw [← happ]; exact h4

/-- If some lead-in token matches a prefix of `rem` before any terminator,
the first loop stops aligned, with the matched bytes in the buffer. -/
theorem phase1_align (rem : List Nat) : ∀ (acc : List Nat)
    (tail : List (Option (List Nat))),
    codesAny acc = false →
    hasEol (acc ++ rem) = false →
    (∃ j, j ≤ rem.length ∧ codesAny (acc ++ rem.take j) = true) →
    ∃ rem₁ rem₂, rem = rem₁ ++ rem₂ ∧
      phase1 (byteAtATime rem ++ tail) acc =
        (acc ++ rem₁, false, byteAtATime rem₂ ++ tail) := by
  induction rem with
  | nil =>
    intro acc _ h1 _ h3
    obtain ⟨j, hj, hc⟩ := h3
    have hj0 : j = 0 := Nat.le_zero.mp (by simpa using hj)
    subst hj0
    simp only [List.take_zero, List.append_nil] at hc
    rw [hc] at h1
    exact absurd h1 (by simp)
  | cons b rem' ih =>
    intro acc tail h1 h2 h3
    rw [byteAtATime_cons, List.cons_append, phase1_some]
    cases hc : codesAny (acc ++ [b]) with
    | true =>
      refine ⟨[b], rem', by simp, ?_⟩
      simp
    | false =>
      have heol : hasEol (acc ++ [b]) = false := by
        refine hasEol_of_append (acc ++ [b]) rem' ?_
        simpa [List.append_assoc] using h2
      rw [if_neg (by decide), if_neg (by simp [heol])]
      have happ : ∀ x : List Nat, acc ++ b :: x = (acc ++ [b]) ++ x := by
        intro x; simp
      obtain ⟨j, hj, hcj⟩ := h3
      have hj' : ∃ j', j' ≤ rem'.length ∧
          codesAny ((acc ++ [b]) ++ rem'.take j') = true := by
        cases j with
        | zero =>
          simp only [List.take_zero, List.append_nil] at hcj
          exact absurd (codesAny_append acc [b] hcj) (by simp [hc])
        | succ j' =>
          refine ⟨j', by simpa using hj, ?_⟩
          rw [← happ]
          simpa using hcj
      obtain ⟨rem₁, rem₂, hsplit, hrun⟩ :=
        ih (acc ++ [b]) tail hc (by rw [← happ]; exact h2) hj'
      refine ⟨b :: rem₁, rem₂, by simp [hsplit], ?_⟩
      rw [hrun, happ rem₁]

/-- Once aligned, the second loop accumulates until the terminator completes
(at the last byte of `rem`) and returns the whole buffer, terminator
included. -/
theorem phase2_run (rem : List Nat) : ∀ (acc : List Nat)
    (tail : List (Option (List Nat))),
    (∀ j, j < rem.length → hasEol (acc ++ rem.take j) = false) →
    hasEol (acc ++ rem) = true →
    phase2 (byteAtATime rem ++ tail) acc false = .ok (acc ++ rem) := by
  induction rem with
  | nil =>
    intro acc tail _ h2
    rw [List.append_nil] at h2 ⊢
    exact phase2_eol _ acc h2
  | cons b rem' ih =>
    intro acc tail h1 h2
    have heol : hasEol acc = false := by
      have := h1 0 (by simp)
      simpa using this
    rw [byteAtATime_cons, List.cons_append, phase2_some _ _ _ heol]
    have happ : ∀ x : List Nat, acc ++ b :: x = (acc ++ [b]) ++ x := by
      intro x; simp
    rw [show ReadResult.ok (acc ++ b :: rem') =
        ReadResult.ok ((acc ++ [b]) ++ rem') from by rw [← happ]]
    refine ih (acc ++ [b]) tail ?_ ?_
    · intro j hj
      have := h1 (j + 1) (by simpa using Nat.succ_lt_succ hj)
      simpa [List.append_assoc] using this
    · rw [← happ]; exact h2

/- ### Assembled behaviour of `_readline` -/

theorem readline_bytes_eq (stream : List (Option (List Nat))) (l : List Nat)
    (b : Bool) (r : List (Option (List Nat))) (h : phase1 stream [] = (l, b, r)) :
    readline_bytes stream = phase2 r l b := by
  unfold readline_bytes
  rw [h]

theorem hasEol_take_false (u v : List Nat) (huv : hasEol (u ++ v) = false) :
    ∀ j, j < (v ++ eolL).length → hasEol (u ++ (v ++ eolL).take j) = false := by
  intro j hj
  by_cases hjv : j ≤ v.length
  · rw [List.take_append_of_le_length hjv]
    refine hasEol_of_append (u ++ v.take j) (v.drop j) ?_
    rw [List.append_assoc, List.take_append_drop]
    exact huv
  · have hj1 : j = v.length + 1 := by
      have : (v ++ eolL).length = v.length + 2 := by simp [eolL]
      omega
    subst hj1
    have htake : (v ++ eolL).take (v.length + 1) = v ++ [13] := by
      rw [List.take_append_eq_append_take, List.take_of_length_le (by omega)]
      congr 1
      have : v.length + 1 - v.length = 1 := by omega
      rw [this]
      rfl
    rw [htake, ← List.append_assoc]
    exact hasEol_append_cr (u ++ v) huv

theorem phase2_full (u v : List Nat) (huv : hasEol (u ++ v) = false)
    (tail : List (Option (List Nat))) :
    phase2 (byteAtATime (v ++ eolL) ++ tail) u false = .ok (u ++ (v ++ eolL)) := by
  refine phase2_run (v ++ eolL) u tail (hasEol_take_false u v huv) ?_
  rw [← List.append_assoc]
  exact hasEol_append_eol (u ++ v)

/-- Reading a stream that starts cleanly with a lead-in-prefixed frame yields
the frame with its terminator still attached. -/
theorem readline_clean (frame code : List Nat) (hcode : code ∈ codesList)
    (hpre : code <+: frame) (hframe : hasEol frame = false) :
    readline_bytes (byteAtATime (frame ++ eolL)) = .ok (frame ++ eolL) := by
  have h3 : ∃ j, j ≤ frame.length ∧ codesAny ([] ++ frame.take j) = true := by
    refine ⟨code.length, hpre.length_le, ?_⟩
    obtain ⟨t, ht⟩ := hpre
    rw [List.nil_append, ← ht, List.take_left]
    rw [codesAny, List.any_eq_true]
    exact ⟨code, hcode, by rw [List.isPrefixOf_iff_prefix]⟩
  obtain ⟨rem₁, rem₂, hsplit, hrun⟩ :=
    phase1_align frame [] (byteAtATime eolL) (by decide)
      (by simpa using hframe) h3
  rw [byteAtATime_append, readline_bytes_eq _ _ _ _ hrun, List.nil_append,
    ← byteAtATime_append]
  have huv : hasEol (rem₁ ++ rem₂) = false := by
    rw [← hsplit]
    exact hframe
  have := phase2_full rem₁ rem₂ huv []
  rw [List.append_nil] at this
  rw [this, ← List.append_assoc, ← hsplit]

/-- Reading a stream that starts with a stray fragment discards the fragment
and its terminator and returns the next frame, with its terminator. -/
theorem readline_resync (frag frame : List Nat) (hfragEol : hasEol frag = false)
    (hfragCodes : codesAny (frag ++ eolL) = false)
    (hframe : hasEol frame = false) :
    readline_bytes (byteAtATime (frag ++ eolL ++ (frame ++ eolL))) =
      .ok (frame ++ eolL) := by
  have hdisc :=
    phase1_discard (frag ++ eolL) [] (byteAtATime (frame ++ eolL)) rfl
      (by simpa using hfragCodes)
      (by
        intro j hj
        have := hasEol_take_false [] frag (by simpa using hfragEol) j hj
        simpa using this)
      (by simpa using hasEol_append_eol frag)
  rw [byteAtATime_append, readline_bytes_eq _ _ _ _ hdisc]
  have := phase2_full [] frame (by simpa using hframe) []
  rw [List.append_nil] at this
  rw [this, List.nil_append]

/- ### Claim theorems for the transport -/

/-- C1 counterexample: a complete `UserInterface` frame read from a clean
stream start is returned by `_readline` with the `\r\n` terminator still
attached, not stripped as the claim states. -/
theorem c1_counterexample :
    readline_bytes (byteAtATime (strBytes ("U 1 CO2 N2 1") ++ eolL)) =
      .ok (strBytes ("U 1 CO2 N2 1") ++ eolL) ∧
    asciiDecode (strBytes ("U 1 CO2 N2 1") ++ eolL) ≠ "U 1 CO2 N2 1" := by
  constructor
  · decide
  · decide

/-- C1 (amended): `_readline` returns the next complete frame with the
terminator retained (not stripped).  With bytes delivered one per read
attempt: a frame whose prefix matches a lead-in token is returned whole,
terminator included; and when the stream starts with a stray fragment (no
terminator inside it, no lead-in token matching its bytes), that fragment
and its terminator are discarded and the first complete frame thereafter is
returned, again terminator included. -/
theorem c1_read_line_frames (frame frag code : List Nat)
    (hcode : code ∈ codesList) (hpre : code <+: frame)
    (hframe : hasEol frame = false) (hfragEol : hasEol frag = false)
    (hfragCodes : codesAny (frag ++ eolL) = false) :
    readline_bytes (byteAtATime (frame ++ eolL)) = .ok (frame ++ eolL) ∧
    readline_bytes (byteAtATime (frag ++ eolL ++ (frame ++ eolL))) =
      .ok (frame ++ eolL) := by
  exact ⟨readline_clean frame code hcode hpre hframe,
    readline_resync frag frame hfragEol hfragCodes hframe⟩

/-- Witness for C1: the amended theorem applied to the concrete frame
`U 1 CO2 N2 1` preceded by the stray fragment `2 N2 1`. -/
theorem c1_read_line_frames_witness :
    readline_bytes (byteAtATime (strBytes ("U 1 CO2 N2 1") ++ eolL)) =
      .ok (strBytes ("U 1 CO2 N2 1") ++ eolL) ∧
    readline_bytes (byteAtATime
        (strBytes ("2 N2 1") ++ eolL ++ (strBytes ("U 1 CO2 N2 1") ++ eolL))) =
      .ok (strBytes ("U 1 CO2 N2 1") ++ eolL) := by
  exact c1_read_line_frames (strBytes ("U 1 CO2 N2 1")) (strBytes ("2 N2 1"))
    (strBytes ("U ")) (by decide) (by decide) (by decide) (by decide)
    (by decide)

/-- C2 (code bug): after the buffer aligns on a lead-in token, an idle wait
that exceeds the timeout leaves `c = None` and the unconditional `line += c`
in the second loop raises `TypeError`; and a timeout during the first loop
returns the partial accumulated buffer (here `N`) rather than no data.  Both
contradict the claim that a timeout aborts the read with no result and that
the transport never raises on timeout. -/
theorem c2_timeout_behaviour :
    readline_bytes [some (strBytes ("N "))] = .typeError ∧
    readline_bytes [some (strBytes ("N")), none] = .ok (strBytes ("N")) := by
  constructor
  · decide
  · decide

/-- C3: `_write_readline` never transmits the command.  Line 251 builds the
`self._write(command)` coroutine without awaiting it, so the written-byte
state of the port is unchanged and the call behaves exactly as a bare
`_readline` on the incoming stream; an actually awaited `_write` would have
grown the written bytes. -/
theorem c3_unawaited_write (st : PortState) (cmd : List Nat) :
    (write_readline st cmd).2.written = st.written ∧
    (write_readline st cmd).1 = readline_bytes st.incoming ∧
    (serial_write st cmd).written ≠ st.written := by
  refine ⟨rfl, rfl, ?_⟩
  intro h
  have h2 := congrArg List.length h
  simp only [serial_write, List.length_append, eolL, List.length_cons,
    List.length_nil] at h2
  omega

/-!
### Device layer (device.py)

Replies of the device are a function `Nat → String`: the string returned by
the i-th `_write_readline` call (the empty string when the read times out).
Retry loops (`while not "N" in df[0]`) are run with explicit fuel; exhausting
the fuel means the Python loop is still running.
-/

/-- A decoded field value: device tokens stay strings unless converted to
floats, and the DAQ layer adds timestamp values. -/
inductive Value
  | str (s : String)
  | num (q : ℚ)
  | time (t : ℚ)
  deriving DecidableEq

/-- Python `ret.replace` removing every NUL character (device.py). -/
def stripNull (s : String) : String :=
  String.mk (s.data.filter (fun c => c ≠ Char.ofNat 0))

/-- Whitespace recognised by Python `str.split()` on ASCII text. -/
def isSpaceCh (c : Char) : Bool :=
  c == ' ' || c == Char.ofNat 9 || c == Char.ofNat 10 || c == Char.ofNat 13 ||
  c == Char.ofNat 11 || c == Char.ofNat 12

/-- Helper of `splitWs`: accumulates the current token in reverse. -/
def splitWsAux : List Char → List Char → List String
  | [], [] => []
  | [], acc => [String.mk acc.reverse]
  | c :: t, acc =>
    if isSpaceCh c then
      match acc with
      | [] => splitWsAux t []
      | _ => String.mk acc.reverse :: splitWsAux t []
    else splitWsAux t (c :: acc)

/-- Python `s.split()`: split on whitespace runs, dropping empty tokens. -/
def splitWs (s : String) : List String := splitWsAux s.data []

/-- Python `str.isnumeric()` restricted to the ASCII text the device sends:
nonempty and all digits (so `"1.5"` and `"-3"` are not numeric). -/
def pyIsNumeric (s : String) : Bool :=
  !s.data.isEmpty && s.data.all Char.isDigit

/-- Value of a digit string, as `float` turns `"12"` into `12.0`. -/
def digitsVal (l : List Char) : Nat :=
  l.foldl (fun n c => n * 10 + (c.toNat - 48)) 0

/-- The per-token conversion loop of the mode readers: tokens passing
`isnumeric()` become floats, every other token stays a string. -/
def convertTok (t : String) : Value :=
  if pyIsNumeric t then .num (digitsVal t.data) else .str t

/-- The `N_labels` list of device.py. -/
def N_labels : List String :=
  ["Mode", "Conc 1", "Conc 2", "Conc 3", "Conc 4", "Conc 5",
   "Current Temperature", "Current Pressure", "Current Humidity"]

/-- The `C1_labels` list of device.py. -/
def C1_labels : List String :=
  ["Mode", "CoeffA", "CoeffB", "CoeffC", "CoeffD", "Zero gas Corr. Factor",
   "Span gas Corr. Factor", "Zero Pot", "Span Pot", "Sam. Pot", "Ref. Pot"]

/-- The `E1_labels` list of device.py. -/
def E1_labels : List String :=
  ["Mode", "Zero Cal. Temp.", "Span Cal. Temp.",
   "Pressure Sensor Slope Cor. (m)", "Pressure Sensor Offset Cor. (x)",
   "Press 4th Coeff (c)", "Press 3rd Coeff (d)", "Press 2nd Coeff (e)",
   "Press 1st Coeff (g)", "Zero Temp Correction Value (z)",
   "Span Temp Correction Value (s)"]

/-- The `O1_labels` list of device.py. -/
def O1_labels : List String :=
  ["Mode", "PWM Voltage Output Slope Corr (m)",
   "PWM Voltage Output Offset Corr (c)", "PWM Voltage Value",
   "PWM Current Output Slope Corr (a)", "PWM Current Output Offset Corr (b)",
   "PWM Current Value"]

/-- The `X_labels` list of device.py. -/
def X_labels : List String :=
  ["Mode", "Firmware Version", "Serial Number", "Config Register",
   "Frequency (f)", "Time Constant (t)", "Switches State"]

/-- The `U_labels` list of device.py. -/
def U_labels : List String :=
  ["Mode", "Gas Range", "Gas Type", "Background Gas", "Display selection"]

/-- The `commands` keyword table of device.py. -/
def commandsTable : List (String × String) :=
  [("val", "N"), ("coeff", "C"), ("environmental", "E"),
   ("zero temp corr", "Ez"), ("span temp corr", "Es"),
   ("1st order coeff", "Eg"), ("2nd order coeff", "Ee"),
   ("3rd order coeff", "Ed"), ("4th order coeff", "Ec"),
   ("slope corr", "Em"), ("offset corr", "Ex"), ("output", "O"),
   ("pwm volt slope", "Om"), ("pwm volt offset", "Ox"),
   ("pwm current slope", "Oa"), ("pwm current offset", "Ob"),
   ("volt output range", "Ov"), ("settings", "X"), ("lamp freq", "Xf"),
   ("rc time const", "Xt"), ("reset all", "Xd"), ("soft reset", "Xq"),
   ("user interface", "U"), ("display selection", "Ud"), ("test leds", "Ut")]

/-- Outcome of a mode-reading method of `Gascard` (`get_val`, `get_coeff`,
`environmental`, `output`, `settings`, `userinterface` with `opt="n"`).
`noneRet` is Python returning `None`; `indexError` is `df[0]` on an empty
token list; `outOfFuel` means the retry loop is still running. -/
inductive GetResult
  | ok (rec : List (String × Value))
  | noneRet
  | indexError
  | outOfFuel
  deriving DecidableEq

/-- The shared body of the mode readers (device.py lines 160-187 and its
clones): read a line, strip NULs, split; on a wrong leading token print and
re-read; then convert numeric tokens and zip the label list against the
tokens.  The second component counts how many `_write_readline` reads were
issued. -/
def read_mode_loop (letter : Char) (labels : List String)
    (replies : Nat → String) : Nat → Nat → GetResult × Nat
  | i, 0 =>
    match splitWs (stripNull (replies i)) with
    | [] => (.indexError, 1)
    | t :: rest =>
      if t.data.contains letter then
        (.ok (labels.zip ((t :: rest).map convertTok)), 1)
      else (.outOfFuel, 1)
  | i, fuel + 1 =>
    match splitWs (stripNull (replies i)) with
    | [] => (.indexError, 1)
    | t :: rest =>
      if t.data.contains letter then
        (.ok (labels.zip ((t :: rest).map convertTok)), 1)
      else
        let p := read_mode_loop letter labels replies (i + 1) fuel
        (p.1, p.2 + 1)

/-- Model of `Gascard.get_val` (device.py lines 160-187). -/
def get_val (replies : Nat → String) (fuel : Nat) : GetResult × Nat :=
  read_mode_loop 'N' N_labels replies 0 fuel

/-- The argument `Gascard.get` receives: `DAQ.get` hands it the list of
requested field names; a direct call passes one keyword string. -/
inductive GetArg
  | one (s : String)
  | many (l : List String)

/-- An ASCII single quote, written by code point to keep the sources free of
quote characters. -/
def sqChar : Char := Char.ofNat 39

/-- Python `str(l)` for a list of strings: `repr` of each element (quoted)
joined by commas inside square brackets. -/
def pyReprList (l : List String) : String :=
  "[" ++ String.intercalate (", ") (l.map (fun s => String.mk (sqChar :: s.data ++ [sqChar]))) ++ "]"

/-- Python `str.lower()` on ASCII text, character by character. -/
def pyLower (s : String) : String := String.mk (s.data.map Char.toLower)

/-- Python `str(comm).lower()` at the top of `Gascard.get`: a non-string argument is
stringified first, then lowercased. -/
def pyStrLower : GetArg → String
  | .one s => pyLower s
  | .many l => pyLower (pyReprList l)

/-- The `elif` dispatch of `Gascard.get` on the first character of the wire
code (device.py lines 521-533); a character outside the six mode letters
falls through to `return` (`None`). -/
def gascard_dispatch (c : Char) (replies : Nat → String) (fuel : Nat) :
    GetResult × Nat :=
  if c.toUpper = 'N' then read_mode_loop 'N' N_labels replies 0 fuel
  else if c.toUpper = 'C' then read_mode_loop 'C' C1_labels replies 0 fuel
  else if c.toUpper = 'E' then read_mode_loop 'E' E1_labels replies 0 fuel
  else if c.toUpper = 'O' then read_mode_loop 'O' O1_labels replies 0 fuel
  else if c.toUpper = 'X' then read_mode_loop 'X' X_labels replies 0 fuel
  else if c.toUpper = 'U' then read_mode_loop 'U' U_labels replies 0 fuel
  else (.noneRet, 0)

/-- Model of `Gascard.get` (device.py lines 510-533): look the stringified, lowercased
argument up in `commands` (a failed lookup prints and returns `None` with no
read issued), then dispatch on the first character of the wire code. -/
def gascard_get (arg : GetArg) (replies : Nat → String) (fuel : Nat) :
    GetResult × Nat :=
  match List.lookup (pyStrLower arg) commandsTable with
  | none => (.noneRet, 0)
  | some code =>
    match code.data with
    | [] => (.noneRet, 0)
    | c :: _ => gascard_dispatch c replies fuel

/-- The `dev_info` value built by `new_device`: a dict zipped from the first
reply, or the bare token list the retry loop overwrites it with. -/
inductive DevInfo
  | dict (l : List (String × Value))
  | vlist (l : List String)
  deriving DecidableEq

/-- Outcome of `new_device`: a constructed `Gascard` carrying `dev_info`, the
`NameError` when the port name does not start with `/dev/` (the `device`
variable is never bound), the `IndexError` of `dev_info_raw.split()[0]` on an
empty reply, or a still-running retry loop. -/
inductive DevOutcome
  | ok (info : DevInfo)
  | nameError
  | indexError
  | outOfFuel
  deriving DecidableEq

/-- The `while not "U" in dev_info_raw.split()[0]` loop of `new_device`
(device.py lines 136-141); on retry `dev_info` is reassigned to the bare
token list of the new reply. -/
def new_device_loop (replies : Nat → String) : Nat → Nat → DevInfo → DevOutcome
  | i, 0, info =>
    match splitWs (stripNull (replies i)) with
    | [] => .indexError
    | t :: _ => if t.data.contains 'U' then .ok info else .outOfFuel
  | i, fuel + 1, info =>
    match splitWs (stripNull (replies i)) with
    | [] => .indexError
    | t :: _ =>
      if t.data.contains 'U' then .ok info
      else
        new_device_loop replies (i + 1) fuel
          (.vlist (splitWs (stripNull (replies (i + 1)))))

/-- Model of `new_device` (device.py lines 126-143): open the port, issue the `U`
probe, zip `U_labels` against the raw reply tokens (no numeric conversion),
then run the mode check loop. -/
def new_device (port : String) (replies : Nat → String) (fuel : Nat) :
    DevOutcome :=
  if ("/dev/" : String).data.isPrefixOf port.data then
    new_device_loop replies 0 fuel
      (.dict (U_labels.zip ((splitWs (stripNull (replies 0))).map Value.str)))
  else .nameError

/-!
### Calibration commands (`Gascard.calibrate` / `Gascard.span`)

`calibrate` works on the raw command string (an empty command, whose
`com.upper()` cannot equal `Z`, hits `com[0]` and raises `IndexError`);
`span` prepends the letter `s`
to the value it receives (a string, since Python concatenates it).  Strings
are handled as character lists here so that the prefixed command stays
syntactic.
-/

/-- Outcome of `Gascard.calibrate`: a performed command, the printed
span-range complaint followed by a silent `return`, the `TypeError` of the
argument-less `self.calibrate()` recursion in the `else` branch, the
`IndexError` of `com[0]` on an empty command, or the `ValueError` of
`float()` on a non-numeric span value. -/
inductive CalOutcome
  | done
  | printedRange
  | typeError
  | indexError
  | valueError
  deriving DecidableEq

/-- Python `float()` on the ASCII decimal strings the callers build:
optional minus sign, digits, optional fractional part. -/
def pyFloatCore (l : List Char) : Option ℚ :=
  let ip := l.takeWhile Char.isDigit
  let rest := l.dropWhile Char.isDigit
  match rest with
  | [] => if ip.isEmpty then none else some (digitsVal ip)
  | c :: fp =>
    if c = '.' then
      if fp.all Char.isDigit && (!ip.isEmpty || !fp.isEmpty) then
        some (mkRat (digitsVal ip * 10 ^ fp.length + digitsVal fp)
          (10 ^ fp.length))
      else none
    else none

/-- Python `float()` with an optional leading minus sign. -/
def pyFloatL : List Char → Option ℚ
  | '-' :: rest => (pyFloatCore rest).map Neg.neg
  | l => pyFloatCore l

/-- Model of `Gascard.calibrate` (device.py lines 218-249).  The span branch checks
`float(com[1:]) < 0.5 or float(com[1:]) > 1.20` and, when it holds, prints
and returns without writing; in range it writes `s` plus the value.  The
result lists the commands handed to `_write_readline`. -/
def calibrate : List Char → CalOutcome × List (List Char)
  | [] => (.indexError, [])
  | c0 :: rest =>
    if (c0 :: rest).map Char.toUpper = ['Z'] then (.done, [['z']])
    else if c0.toUpper = 'S' then
      match pyFloatL rest with
      | none => (.valueError, [])
      | some q =>
        if q < mkRat 1 2 ∨ mkRat 6 5 < q then (.printedRange, [])
        else (.done, ['s' :: rest])
    else if c0.toUpper = 'H' then (.done, ['h' :: rest])
    else if c0.toUpper = 'I' then (.done, ['i' :: rest])
    else if c0.toUpper = 'J' then (.done, ['j' :: rest])
    else if c0.toUpper = 'K' then (.done, ['k' :: rest])
    else (.typeError, [])

/-- Model of `Gascard.span` (device.py lines 565-572): `self.calibrate("s" + val)`. -/
def span (val : List Char) : CalOutcome × List (List Char) :=
  calibrate ('s' :: val)

/-!
### DAQ layer (daq.py)

`DAQ.get` launches `update_dict_get` once per device inside an anyio task
group.  A task group propagates any child exception out of the `async with`
block and cancels the remaining children, so the fan-out is modelled as: the
call returns its dictionary only when every per-device task succeeds, and
raises the first failure otherwise.
-/

/-- A Python exception escaping a per-device task. -/
inductive PyError
  | attributeError
  | indexError
  | diverged
  deriving DecidableEq

/-- Python `d.any`-style key membership for a dict. -/
def dictHasKey {α : Type} (d : List (String × α)) (k : String) : Bool :=
  d.any (fun p => p.1 == k)

/-- Python `d.update({k: v})` / `d[k] = v`: replace in place, else append. -/
def dictUpdate {α : Type} (d : List (String × α)) (k : String) (v : α) :
    List (String × α) :=
  if dictHasKey d k then
    d.map (fun p => if p.1 == k then (k, v) else p)
  else d ++ [(k, v)]

/-- Python `d[k]` as an optional lookup (first matching key). -/
def dictLookup {α : Type} : List (String × α) → String → Option α
  | [], _ => none
  | p :: t, k => if p.1 == k then some p.2 else dictLookup t k

/-- What one device contributes to a `DAQ.get` fan-out: the outcome of its
`Gascard.get` call and the two wall-clock timestamps `update_dict_get`
records around it. -/
structure GetTask where
  res : GetResult
  t_req : ℚ
  t_resp : ℚ

/-- Model of `DAQ.update_dict_get` (daq.py lines 98-123): records `Request Sent`,
runs the device `get`, records `Response Received`, and stores the record
under the device name.  A device `get` that raises propagates; a device
`get` that returns `None` makes `vals.update(...)` raise `AttributeError`. -/
def update_dict_get (ret : List (String × List (String × Value)))
    (dev : String) (task : GetTask) :
    Except PyError (List (String × List (String × Value))) :=
  match task.res with
  | .ok vals =>
    .ok (dictUpdate ret dev
      (dictUpdate (dictUpdate vals ("Request Sent") (.time task.t_req))
        ("Response Received") (.time task.t_resp)))
  | .noneRet => .error .attributeError
  | .indexError => .error .indexError
  | .outOfFuel => .error .diverged

/-- The task-group fan-out of `DAQ.get` (daq.py lines 125-156): every task
must succeed for the call to return; a failing task makes the whole
`async with create_task_group()` block raise. -/
def daq_get_go : List (String × GetTask) →
    List (String × List (String × Value)) →
    Except PyError (List (String × List (String × Value)))
  | [], ret => .ok ret
  | (dev, task) :: rest, ret =>
    match update_dict_get ret dev task with
    | .ok ret' => daq_get_go rest ret'
    | .error e => .error e

/-- Model of `DAQ.get` over a list of named device tasks. -/
def daq_get (devs : List (String × GetTask)) :
    Except PyError (List (String × List (String × Value))) :=
  daq_get_go devs []

/-- Whether a `Gascard.get` outcome is a successful record. -/
def isOkRes : GetResult → Bool
  | .ok _ => true
  | _ => false

/-- One row built by `DAQLogging.logging` (daq.py lines 451-467): the dict
literal puts `Time` first, computed as `Request Sent` plus half the
request-to-response interval, then splices the whole device record over the
explicit keys.  Missing or non-timestamp entries would raise in Python,
modelled as `none`. -/
def buildRow (dev : String) (rec : List (String × Value)) :
    Option (List (String × Value)) :=
  match dictLookup rec ("Request Sent"), dictLookup rec ("Response Received") with
  | some (.time a), some (.time b) =>
    some (rec.foldl (fun d p => dictUpdate d p.1 p.2)
      [("Time", .time (a + (b - a) / 2)), ("Device", .str dev),
       ("Request Sent", .time a), ("Response Received", .time b)])
  | _, _ => none

/-- The per-tick row list of `DAQLogging.logging`. -/
def logging_rows (df : List (String × List (String × Value))) :
    List (Option (List (String × Value))) :=
  df.map (fun p => buildRow p.1 p.2)

/- ### Dictionary lemmas -/

theorem dictLookup_map_self {α : Type} (d : List (String × α)) (k : String)
    (v : α) :
    dictLookup (d.map (fun p => if p.1 == k then (k, v) else p)) k =
      if dictHasKey d k then some v else none := by
  induction d with
  | nil => rfl
  | cons p t ih =>
    rw [List.map_cons, dictHasKey, List.any_cons]
    rcases Bool.eq_false_or_eq_true (p.1 == k) with hp | hp
    · rw [if_pos hp, dictLookup, if_pos (by simp), hp, Bool.true_or,
        if_pos rfl]
    · rw [if_neg (by simp [hp]), dictLookup, if_neg (by simp [hp]), ih, hp,
        Bool.false_or, dictHasKey]

theorem dictLookup_append_single {α : Type} (d : List (String × α))
    (k : String) (v : α) (h : dictHasKey d k = false) :
    dictLookup (d ++ [(k, v)]) k = some v := by
  induction d with
  | nil => simp [dictLookup]
  | cons p t ih =>
    rw [dictHasKey, List.any_cons, Bool.or_eq_false_iff] at h
    rw [List.cons_append, dictLookup, if_neg (by simp [h.1])]
    exact ih h.2

theorem dictLookup_update_self {α : Type} (d : List (String × α)) (k : String)
    (v : α) : dictLookup (dictUpdate d k v) k = some v := by
  rw [dictUpdate]
  rcases Bool.eq_false_or_eq_true (dictHasKey d k) with h | h
  · rw [if_pos (by simp [h]), dictLookup_map_self, if_pos (by simp [h])]
  · rw [if_neg (by simp [h])]; exact dictLookup_append_single d k v h

theorem dictLookup_map_ne {α : Type} (d : List (String × α)) (k k' : String)
    (v : α) (h : k' ≠ k) :
    dictLookup (d.map (fun p => if p.1 == k then (k, v) else p)) k' =
      dictLookup d k' := by
  have hkk : (k == k') = false := by
    simp only [beq_eq_false_iff_ne, ne_eq]
    exact fun he => h he.symm
  induction d with
  | nil => rfl
  | cons p t ih =>
    rw [List.map_cons, dictLookup]
    rcases Bool.eq_false_or_eq_true (p.1 == k) with hp | hp
    · have hpk : p.1 = k := by simpa using hp
      rw [if_pos hp, dictLookup, ih, if_neg (by simp [hkk]),
        if_neg (by rw [hpk]; simp [hkk])]
    · have hhead : (if (p.1 == k) = true then (k, v) else p) = p := by
        rw [if_neg (by simp [hp])]
      rw [hhead, ih, dictLookup]

theorem dictLookup_append_ne {α : Type} (d : List (String × α))
    (k k' : String) (v : α) (h : k' ≠ k) :
    dictLookup (d ++ [(k, v)]) k' = dictLookup d k' := by
  have hkk : (k == k') = false := by
    simp only [beq_eq_false_iff_ne, ne_eq]
    exact fun he => h he.symm
  induction d with
  | nil => simp [dictLookup, hkk]
  | cons p t ih =>
    rw [List.cons_append, dictLookup, dictLookup, ih]

theorem dictLookup_update_ne {α : Type} (d : List (String × α)) (k k' : String)
    (v : α) (h : k' ≠ k) :
    dictLookup (dictUpdate d k v) k' = dictLookup d k' := by
  rw [dictUpdate]
  rcases Bool.eq_false_or_eq_true (dictHasKey d k) with hk | hk
  · rw [if_pos (by simp [hk])]; exact dictLookup_map_ne d k k' v h
  · rw [if_neg (by simp [hk])]; exact dictLookup_append_ne d k k' v h

theorem dictHasKey_false_forall {α : Type} (d : List (String × α)) (k : String)
    (h : dictHasKey d k = false) : ∀ p ∈ d, p.1 ≠ k := by
  intro p hp
  rw [dictHasKey, List.any_eq_false] at h
  have := h p hp
  simpa using this

theorem dictUpdate_forall_keys {α : Type} (d : List (String × α)) (k : String)
    (v : α) (P : String → Prop) (hd : ∀ p ∈ d, P p.1) (hk : P k) :
    ∀ p ∈ dictUpdate d k v, P p.1 := by
  intro p hp
  rw [dictUpdate] at hp
  rcases Bool.eq_false_or_eq_true (dictHasKey d k) with h | h
  · rw [if_pos (by simp [h])] at hp
    obtain ⟨q, hq, hmap⟩ := List.mem_map.mp hp
    rcases Bool.eq_false_or_eq_true (q.1 == k) with hqk | hqk
    · rw [if_pos hqk] at hmap
      rw [← hmap]
      exact hk
    · rw [if_neg (by simp [hqk])] at hmap
      rw [← hmap]
      exact hd q hq
  · rw [if_neg (by simp [h])] at hp
    rcases List.mem_append.mp hp with h1 | h1
    · exact hd p h1
    · rw [List.mem_singleton] at h1
      rw [h1]
      exact hk

theorem dictLookup_foldl_ne {α : Type} (ps : List (String × α)) :
    ∀ (d : List (String × α)) (k : String), (∀ p ∈ ps, p.1 ≠ k) →
    dictLookup (ps.foldl (fun d p => dictUpdate d p.1 p.2) d) k =
      dictLookup d k := by
  induction ps with
  | nil => intro d k _; rfl
  | cons p t ih =>
    intro d k h
    rw [List.foldl_cons,
      ih (dictUpdate d p.1 p.2) k (fun q hq => h q (List.mem_cons_of_mem p hq)),
      dictLookup_update_ne d p.1 k p.2
        (Ne.symm (h p (List.mem_cons_self p t)))]

/- ### Behaviour of the mode readers -/

theorem read_mode_loop_first (letter : Char) (labels : List String)
    (replies : Nat → String) (fuel : Nat) (t : String) (rest : List String)
    (h4 : splitWs (stripNull (replies 0)) = t :: rest)
    (h5 : t.data.contains letter = true) :
    read_mode_loop letter labels replies 0 fuel =
      (.ok (labels.zip ((t :: rest).map convertTok)), 1) := by
  cases fuel with
  | zero => rw [read_mode_loop, h4]; simp only [h5, reduceIte]
  | succ f => rw [read_mode_loop, h4]; simp only [h5, reduceIte]

/-- C8 counterexample: a Normal-mode line with only 3 tokens against the
9-label `N_labels` is decoded by `get_val` into a silently truncated
3-entry record; no error of any kind is raised. -/
theorem c8_counterexample :
    get_val (fun _ => "N 1 2\r\n") 5 =
      (.ok [("Mode", Value.str ("N")), ("Conc 1", Value.num 1),
        ("Conc 2", Value.num 2)], 1) := by
  decide

/-- C8 (amended): `get_val` performs no field-count validation: whatever the
token count of the reply, the record is `zip`-ed and thereby truncated to
the shorter of the label list and the token list; there is no
`FrameShapeError`. -/
theorem c8_zip_truncates (replies : Nat → String) (fuel : Nat) (t : String)
    (rest : List String) (h4 : splitWs (stripNull (replies 0)) = t :: rest)
    (h5 : t.data.contains 'N' = true) :
    get_val replies fuel =
      (.ok (N_labels.zip ((t :: rest).map convertTok)), 1) ∧
    (N_labels.zip ((t :: rest).map convertTok)).length =
      min N_labels.length (t :: rest).length := by
  refine ⟨read_mode_loop_first 'N' N_labels replies fuel t rest h4 h5, ?_⟩
  rw [List.length_zip, List.length_map]

/-- Witness for C8: the truncated 3-token line. -/
theorem c8_zip_truncates_witness :
    get_val (fun _ => "N 1 2\r\n") 7 =
      (.ok (N_labels.zip ((["N", "1", "2"] : List String).map convertTok)), 1) ∧
    (N_labels.zip ((["N", "1", "2"] : List String).map convertTok)).length =
      min N_labels.length (["N", "1", "2"] : List String).length := by
  exact c8_zip_truncates (fun _ => "N 1 2\r\n") 7 ("N") ["1", "2"]
    (by decide) (by decide)

/-- C9 counterexample: for the probe reply `U 1 CO2 N2 1\r\n`, `new_device`
zips the label list against the raw tokens with no numeric conversion, so
`Gas Range` maps to the string `1`, not the number `1.0` of the claim. -/
theorem c9_counterexample :
    new_device ("/dev/ttyUSB0") (fun _ => "U 1 CO2 N2 1\r\n") 5 =
      .ok (.dict [("Mode", Value.str ("U")), ("Gas Range", Value.str ("1")),
        ("Gas Type", Value.str ("CO2")), ("Background Gas", Value.str ("N2")),
        ("Display selection", Value.str ("1"))]) ∧
    Value.str ("1") ≠ Value.num 1 := by
  constructor
  · decide
  · decide

/-- C9 (amended): when the first probe reply's leading token contains `U`,
construction succeeds and the device-info record maps the `U_labels` to the
raw reply tokens kept as strings; `new_device` converts nothing to numbers. -/
theorem c9_device_info_strings (port : String) (replies : Nat → String)
    (fuel : Nat) (t : String) (rest : List String)
    (hport : ("/dev/" : String).data.isPrefixOf port.data = true)
    (h4 : splitWs (stripNull (replies 0)) = t :: rest)
    (h5 : t.data.contains 'U' = true) :
    new_device port replies fuel =
      .ok (.dict (U_labels.zip ((t :: rest).map Value.str))) := by
  rw [new_device, if_pos hport, h4]
  cases fuel with
  | zero => rw [new_device_loop, h4]; simp only [h5, reduceIte]
  | succ f => rw [new_device_loop, h4]; simp only [h5, reduceIte]

/-- Witness for C9: the concrete probe reply of the scenario. -/
theorem c9_device_info_strings_witness :
    new_device ("/dev/ttyUSB0") (fun _ => "U 1 CO2 N2 1\r\n") 5 =
      .ok (.dict (U_labels.zip
        ((["U", "1", "CO2", "N2", "1"] : List String).map Value.str))) := by
  exact c9_device_info_strings ("/dev/ttyUSB0") (fun _ => "U 1 CO2 N2 1\r\n")
    5 ("U") ["1", "CO2", "N2", "1"] (by decide) (by decide) (by decide)

/-- If every reply's leading token lacks `U`, the `new_device` retry loop
never terminates (it is still running after any number of iterations). -/
theorem new_device_loop_stuck (replies : Nat → String)
    (h : ∀ i, ∃ t rest, splitWs (stripNull (replies i)) = t :: rest ∧
      t.data.contains 'U' = false) :
    ∀ fuel i info, new_device_loop replies i fuel info = .outOfFuel := by
  intro fuel
  induction fuel with
  | zero =>
    intro i info
    obtain ⟨t, rest, h1, h2⟩ := h i
    rw [new_device_loop, h1]
    simp only [h2]
    rw [if_neg (by decide)]
  | succ f ih =>
    intro i info
    obtain ⟨t, rest, h1, h2⟩ := h i
    rw [new_device_loop, h1]
    simp only [h2]
    rw [if_neg (by decide)]
    exact ih (i + 1) _

/-- C4 counterexample: against a silent endpoint (every read times out and
`_write_readline` returns the empty string) `new_device` raises `IndexError`
from `dev_info_raw.split()[0]`, not `DeviceNotFoundError`; and against an
endpoint that keeps answering Normal-mode lines it never terminates (shown
still looping after 30 retries), rather than raising `UnexpectedModeError`. -/
theorem c4_counterexample :
    new_device ("/dev/ttyUSB0") (fun _ => "") 3 = .indexError ∧
    new_device ("/dev/ttyUSB0") (fun _ => "N 200 1 2 3 4 5 6 7\r\n") 30 =
      .outOfFuel := by
  constructor
  · decide
  · decide

/-- C4 (amended): neither `DeviceNotFoundError` nor `UnexpectedModeError`
exists.  When the probe reply is empty (timeout), construction raises
`IndexError`; when every reply's leading token lacks `U`, construction
prints and re-reads forever, never terminating with an error. -/
theorem c4_construction_errors (port : String) (replies : Nat → String)
    (hport : ("/dev/" : String).data.isPrefixOf port.data = true) :
    (splitWs (stripNull (replies 0)) = [] →
      ∀ fuel, new_device port replies fuel = .indexError) ∧
    ((∀ i, ∃ t rest, splitWs (stripNull (replies i)) = t :: rest ∧
        t.data.contains 'U' = false) →
      ∀ fuel, new_device port replies fuel = .outOfFuel) := by
  constructor
  · intro h fuel
    rw [new_device, if_pos hport]
    cases fuel with
    | zero => rw [new_device_loop, h]
    | succ f => rw [new_device_loop, h]
  · intro h fuel
    rw [new_device, if_pos hport]
    exact new_device_loop_stuck replies h fuel 0 _

/-- Witness for C4: the silent endpoint raises `IndexError`. -/
theorem c4_construction_errors_witness :
    new_device ("/dev/ttyUSB0") (fun _ => "") 4 = .indexError := by
  exact (c4_construction_errors ("/dev/ttyUSB0") (fun _ => "")
    (by decide)).1 (by decide) 4

/- ### Claim theorems for the command layer -/

/-- C6 counterexample: `DAQ.get` hands `Gascard.get` the list of requested
field names; for three fields all owned by the UserInterface mode, the
stringified list fails the `commands` lookup, so `get` prints `Invalid
command` and returns `None` having issued zero reads, not the single
batched read of the claim. -/
theorem c6_counterexample :
    gascard_get (.many ["Gas Range", "Gas Type", "Background Gas"])
      (fun _ => "U 1 CO2 N2 1\r\n") 5 = (.noneRet, 0) := by
  decide

/-- C6 (amended): there is no field-name resolution or mode batching.
`Gascard.get` accepts exactly one keyword of the `commands` table and issues
exactly one mode read for it (when the device answers in the expected mode
on the first try), returning that one mode's record; a request for a list
of field names is stringified, fails the lookup, and yields `None` with
zero reads. -/
theorem c6_single_read (key code : String) (c : Char) (cs : List Char)
    (replies : Nat → String) (fuel : Nat) (t : String) (rest : List String)
    (h1 : List.lookup (pyLower key) commandsTable = some code)
    (h2 : code.data = c :: cs)
    (h3 : c.toUpper = 'N' ∨ c.toUpper = 'C' ∨ c.toUpper = 'E' ∨
      c.toUpper = 'O' ∨ c.toUpper = 'X' ∨ c.toUpper = 'U')
    (h4 : splitWs (stripNull (replies 0)) = t :: rest)
    (h5 : t.data.contains c.toUpper = true) :
    (∃ rec, gascard_get (.one key) replies fuel = (.ok rec, 1)) ∧
    gascard_get (.many ["Gas Range", "Gas Type", "Background Gas"]) replies
      fuel = (.noneRet, 0) := by
  have hdisp : gascard_get (.one key) replies fuel =
      gascard_dispatch c replies fuel := by
    simp only [gascard_get, pyStrLower, h1, h2]
  constructor
  · rcases h3 with hc | hc | hc | hc | hc | hc
    · rw [hc] at h5
      exact ⟨_, by rw [hdisp, gascard_dispatch, if_pos hc,
        read_mode_loop_first 'N' N_labels replies fuel t rest h4 h5]⟩
    · rw [hc] at h5
      exact ⟨_, by rw [hdisp, gascard_dispatch, if_neg (by rw [hc]; decide),
        if_pos hc, read_mode_loop_first 'C' C1_labels replies fuel t rest h4 h5]⟩
    · rw [hc] at h5
      exact ⟨_, by rw [hdisp, gascard_dispatch, if_neg (by rw [hc]; decide),
        if_neg (by rw [hc]; decide), if_pos hc,
        read_mode_loop_first 'E' E1_labels replies fuel t rest h4 h5]⟩
    · rw [hc] at h5
      exact ⟨_, by rw [hdisp, gascard_dispatch, if_neg (by rw [hc]; decide),
        if_neg (by rw [hc]; decide), if_neg (by rw [hc]; decide), if_pos hc,
        read_mode_loop_first 'O' O1_labels replies fuel t rest h4 h5]⟩
    · rw [hc] at h5
      exact ⟨_, by rw [hdisp, gascard_dispatch, if_neg (by rw [hc]; decide),
        if_neg (by rw [hc]; decide), if_neg (by rw [hc]; decide),
        if_neg (by rw [hc]; decide), if_pos hc,
        read_mode_loop_first 'X' X_labels replies fuel t rest h4 h5]⟩
    · rw [hc] at h5
      exact ⟨_, by rw [hdisp, gascard_dispatch, if_neg (by rw [hc]; decide),
        if_neg (by rw [hc]; decide), if_neg (by rw [hc]; decide),
        if_neg (by rw [hc]; decide), if_neg (by rw [hc]; decide), if_pos hc,
        read_mode_loop_first 'U' U_labels replies fuel t rest h4 h5]⟩
  · simp only [gascard_get, pyStrLower]
    rw [show List.lookup (pyLower (pyReprList ["Gas Range", "Gas Type",
      "Background Gas"])) commandsTable = none from by decide]

/-- Witness for C6: the keyword `val` against a well-behaved device issues
exactly one read. -/
theorem c6_single_read_witness :
    (∃ rec, gascard_get (.one ("val")) (fun _ => "N 1 2 3 4 5 6 7 8\r\n") 5 =
      (.ok rec, 1)) ∧
    gascard_get (.many ["Gas Range", "Gas Type", "Background Gas"])
      (fun _ => "N 1 2 3 4 5 6 7 8\r\n") 5 = (.noneRet, 0) := by
  exact c6_single_read ("val") ("N") 'N' [] (fun _ => "N 1 2 3 4 5 6 7 8\r\n")
    5 ("N") ["1", "2", "3", "4", "5", "6", "7", "8"] (by decide) (by decide)
    (Or.inl (by decide)) (by decide) (by decide)

/-- C7 counterexample: out-of-range span fractions make `calibrate` print
`Error: Span value must be between 0.5 and 1.20` and return `None` with no
write issued; there is no `OutOfRangeError`.  The boundary values pass and
issue the span write. -/
theorem c7_counterexample :
    span (("0.49").data) = (.printedRange, []) ∧
    span (("1.21").data) = (.printedRange, []) ∧
    span (("0.5").data) = (.done, [("s0.5").data]) ∧
    span (("1.2").data) = (.done, [("s1.2").data]) := by
  refine ⟨by decide, by decide, by decide, by decide⟩

/-- C7 (amended): `span` validates `0.5 <= fraction <= 1.2` before any
write, but an out-of-range fraction is reported by printing and returning
`None` (no exception of any kind), with no write issued; an in-range
fraction issues the single span write `s` plus the value. -/
theorem c7_span_validates (val : List Char) (q : ℚ)
    (h : pyFloatL val = some q) :
    ((q < mkRat 1 2 ∨ mkRat 6 5 < q) → span val = (.printedRange, [])) ∧
    (mkRat 1 2 ≤ q ∧ q ≤ mkRat 6 5 → span val = (.done, ['s' :: val])) := by
  have hz : ('s' :: val).map Char.toUpper ≠ ['Z'] := by
    intro he
    rw [List.map_cons] at he
    injection he with h1 h2
    exact absurd h1 (by decide)
  constructor
  · intro hout
    rw [span, calibrate, if_neg hz,
      if_pos (show Char.toUpper 's' = 'S' from by decide)]
    simp only [h]
    rw [if_pos hout]
  · intro hin
    rw [span, calibrate, if_neg hz,
      if_pos (show Char.toUpper 's' = 'S' from by decide)]
    simp only [h]
    rw [if_neg (by push_neg; exact ⟨hin.1, hin.2⟩)]

/-- Witness for C7: `span("0.49")` prints and returns with no write. -/
theorem c7_span_validates_witness :
    span (("0.49").data) = (.printedRange, []) ∧
    span (("0.5").data) = (.done, ['s' :: ("0.5").data]) := by
  refine ⟨(c7_span_validates (("0.49").data) (mkRat 49 100) (by decide)).1
    (Or.inl (by decide)), ?_⟩
  exact (c7_span_validates (("0.5").data) (mkRat 5 10) (by decide)).2
    ⟨by decide, by decide⟩

/- ### Claim theorems for the DAQ fan-out -/

/-- C5 counterexample: with device `A` healthy and device `B` failing (its
`get` raises `IndexError`), `DAQ.get` does not return a mapping holding
`A`'s record plus an error entry for `B`: the task group re-raises `B`'s
exception out of the whole call. -/
theorem c5_counterexample :
    daq_get [("A", ⟨.ok [("Mode", Value.str ("N"))], 0, 1⟩),
      ("B", ⟨.indexError, 0, 1⟩)] = .error .indexError := by
  rfl

/-- C5 (amended): per-device failures are not isolated.  `DAQ.get` returns a
mapping exactly when every per-device task succeeds; any failing task makes
the anyio task group cancel its siblings and re-raise, so the call raises
and no partial mapping with per-device error entries is produced. -/
theorem c5_fanout_all_or_nothing (devs : List (String × GetTask)) :
    (∃ m, daq_get devs = .ok m) ↔ ∀ d ∈ devs, isOkRes d.2.res = true := by
  have main : ∀ (l : List (String × GetTask))
      (ret : List (String × List (String × Value))),
      (∃ m, daq_get_go l ret = .ok m) ↔ ∀ d ∈ l, isOkRes d.2.res = true := by
    intro l
    induction l with
    | nil =>
      intro ret
      constructor
      · intro _ d hd
        exact absurd hd (List.not_mem_nil d)
      · intro _
        exact ⟨ret, rfl⟩
    | cons p t ih =>
      intro ret
      obtain ⟨dev, task⟩ := p
      rw [List.forall_mem_cons, daq_get_go]
      cases htask : task.res with
      | ok vals =>
        simp only [update_dict_get, htask]
        rw [ih]
        simp [isOkRes]
      | noneRet =>
        simp only [update_dict_get, htask]
        simp [isOkRes]
      | indexError =>
        simp only [update_dict_get, htask]
        simp [isOkRes]
      | outOfFuel =>
        simp only [update_dict_get, htask]
        simp [isOkRes]
  rw [daq_get]
  exact main devs []

/- ### Claim theorem for the logging timestamp -/

/-- The record `update_dict_get` stores for a device: its `Gascard.get`
record with the two timestamps added. -/
def recordWithTimes (vals : List (String × Value)) (t1 t2 : ℚ) :
    List (String × Value) :=
  dictUpdate (dictUpdate vals ("Request Sent") (.time t1))
    ("Response Received") (.time t2)

/-- C10: for any device record produced by `update_dict_get` with recorded
timestamps `t1` (request sent) and `t2` (response received), the `Time`
entry of the Sample Batch row built by `DAQLogging.logging` equals the exact
midpoint `(t1 + t2) / 2`. -/
theorem c10_sample_time (ret : List (String × List (String × Value)))
    (dev : String) (vals : List (String × Value)) (t1 t2 : ℚ)
    (hT : dictHasKey vals ("Time") = false) :
    update_dict_get ret dev ⟨.ok vals, t1, t2⟩ =
      .ok (dictUpdate ret dev (recordWithTimes vals t1 t2)) ∧
    ∃ row, buildRow dev (recordWithTimes vals t1 t2) = some row ∧
      dictLookup row ("Time") = some (.time ((t1 + t2) / 2)) := by
  constructor
  · rfl
  · have hRS : dictLookup (recordWithTimes vals t1 t2) ("Request Sent") =
        some (.time t1) := by
      rw [recordWithTimes, dictLookup_update_ne _ _ _ _ (by decide),
        dictLookup_update_self]
    have hRR : dictLookup (recordWithTimes vals t1 t2) ("Response Received") =
        some (.time t2) := by
      rw [recordWithTimes, dictLookup_update_self]
    simp only [buildRow, hRS, hRR]
    refine ⟨_, rfl, ?_⟩
    have hkeys : ∀ p ∈ recordWithTimes vals t1 t2, p.1 ≠ ("Time") := by
      refine dictUpdate_forall_keys _ _ _ (fun s => s ≠ ("Time"))
        (dictUpdate_forall_keys _ _ _ (fun s => s ≠ ("Time"))
          (dictHasKey_false_forall vals _ hT) (by decide)) (by decide)
    rw [dictLookup_foldl_ne _ _ _ hkeys, dictLookup, if_pos (by simp)]
    have harith : t1 + (t2 - t1) / 2 = (t1 + t2) / 2 := by ring
    rw [harith]

/-- Witness for C10: a concrete record with timestamps 0 and 1. -/
theorem c10_sample_time_witness :
    update_dict_get [] ("A") ⟨.ok [("Conc 1", Value.num 3)], 0, 1⟩ =
      .ok (dictUpdate [] ("A")
        (recordWithTimes [("Conc 1", Value.num 3)] 0 1)) ∧
    ∃ row, buildRow ("A") (recordWithTimes [("Conc 1", Value.num 3)] 0 1) =
      some row ∧
      dictLookup row ("Time") = some (.time ((0 + 1) / 2)) := by
  exact c10_sample_time [] ("A") [("Conc 1", Value.num 3)] 0 1 (by decide)
